import Mathlib

/-!
# Verification of the `rings-rs` exact-arithmetic library

Shallow embedding of `src/lib.rs`: the canonicalized dyadic rational type
`Dyadic(i64, u32)` and the quadratic-extension ring `RootTwo<T>` representing
`a + b·√2`, together with proofs about their arithmetic operations.

Modelling conventions:
* Rust `i64` numerators/coefficients are modelled as `Int` and `u32` exponents
  as `Nat`.  Fixed-width overflow of the numerator arithmetic is a documented
  precondition of the library (spec §7: overflow is a precondition violation,
  not handled), so the main definitions compute exactly; the width-sensitive
  shift `1i64 << (b.1 - a.1)` inside `Dyadic` addition is additionally modelled
  faithfully at 64-bit width by `shl1i64` / `Dyadic.addChecked` below.
* The Rust `while` loops are phrased as structural recursions on the quantity
  that the loop decreases (the exponent for `simplify`, the remaining power for
  `pow`), preserving the loop tests exactly.
-/

/-- `Dyadic(x, k)` represents the rational `x / 2^k`.
Mirrors `pub struct Dyadic(i64, u32)`; field `num` is the `i64` numerator
(component `.0`), `exp` the `u32` exponent (component `.1`). -/
structure Dyadic where
  num : Int
  exp : Nat
deriving DecidableEq, Repr

/-- `a + b·√2` over coefficients `α`.  Mirrors `pub struct RootTwo<T>(T, T)`:
`a` is component `.0`, `b` is component `.1`. -/
structure RootTwo (α : Type) where
  a : α
  b : α
deriving DecidableEq, Repr

namespace Dyadic

/-- `Dyadic::simplify`: repeatedly halve the numerator and decrement the
exponent while `x > 0 && k > 0 && (x & (x - 1)) == 0` (i.e. while the numerator
is a positive power of two and the exponent is positive).  The Rust `while`
loop is phrased as structural recursion on `k`, which the loop decrements on
every iteration; the `k > 0` test of the loop guard becomes the pattern match. -/
def simplify (x : Int) (k : Nat) : Dyadic :=
  match k with
  | 0 => ⟨x, 0⟩
  | k' + 1 =>
    if 0 < x ∧ Int.land x (x - 1) = 0 then simplify (x / 2) k'
    else ⟨x, k' + 1⟩

/-- `impl ops::Neg for Dyadic`: negate the numerator, keep the exponent; no
re-simplification. -/
def neg (d : Dyadic) : Dyadic := ⟨-d.num, d.exp⟩

/-- `impl ops::Add for Dyadic`: equal exponents add numerators directly;
otherwise the operand `a` with the smaller exponent is scaled by
`k_delta = 1i64 << (b.1 - a.1)` (the exact value `2 ^ (b.exp - a.exp)`; the
64-bit width limit of the shift is modelled by `addChecked` below) and the
result is simplified at the larger exponent `b.1`. -/
def add (s r : Dyadic) : Dyadic :=
  if s.exp = r.exp then simplify (s.num + r.num) s.exp
  else
    let a := if s.exp < r.exp then s else r
    let b := if s.exp < r.exp then r else s
    let kDelta : Int := 2 ^ (b.exp - a.exp)
    simplify (a.num * kDelta + b.num) b.exp

/-- `impl ops::Sub for Dyadic`: `self + -rhs`. -/
def sub (s r : Dyadic) : Dyadic := s.add r.neg

/-- `impl ops::Mul for Dyadic`: multiply numerators, add exponents, simplify. -/
def mul (s r : Dyadic) : Dyadic := simplify (s.num * r.num) (s.exp + r.exp)

/-- `impl ops::Mul<i64> for Dyadic`: scale the numerator, simplify. -/
def mulInt (s : Dyadic) (n : Int) : Dyadic := simplify (s.num * n) s.exp

/-- `impl ops::Mul<Dyadic> for i64`: scale the numerator, simplify. -/
def intMul (n : Int) (r : Dyadic) : Dyadic := simplify (n * r.num) r.exp

instance : Neg Dyadic := ⟨neg⟩
instance : Add Dyadic := ⟨add⟩
instance : Sub Dyadic := ⟨sub⟩
instance : Mul Dyadic := ⟨mul⟩
instance : HMul Dyadic Int Dyadic := ⟨mulInt⟩
instance : HMul Int Dyadic Dyadic := ⟨intMul⟩

/-- The exit condition of the `simplify` loop, as a `Bool`: a `Dyadic` is
`reduced` when its numerator is NOT a positive power of two at a positive
exponent, i.e. `!(0 < num && 0 < exp && num & (num-1) == 0)`.  Every value
returned by `simplify` satisfies this (the loop only stops when its guard
fails). -/
def reduced (d : Dyadic) : Bool :=
  !(0 < d.num && 0 < d.exp && Int.land d.num (d.num - 1) == 0)

end Dyadic

namespace RootTwo

/-- `impl<T: Add> ops::Add for RootTwo<T>`: componentwise addition. -/
def add {α : Type} [Add α] (x y : RootTwo α) : RootTwo α :=
  ⟨x.a + y.a, x.b + y.b⟩

/-- `impl<T: Sub> ops::Sub for RootTwo<T>`: componentwise subtraction. -/
def sub {α : Type} [Sub α] (x y : RootTwo α) : RootTwo α :=
  ⟨x.a - y.a, x.b - y.b⟩

/-- `impl<T: Neg> ops::Neg for RootTwo<T>`: componentwise negation. -/
def neg {α : Type} [Neg α] (x : RootTwo α) : RootTwo α :=
  ⟨-x.a, -x.b⟩

/-- `impl ops::Mul for RootTwo<T>` where `T: Mul + Add + Mul<i64>`:
`(a₁ + b₁√2)(a₂ + b₂√2) = (a₁a₂ + 2 b₁b₂) + (a₁b₂ + b₁a₂)√2`; the literal
`2` is an `i64` scalar, multiplied via `T: Mul<i64>`. -/
def mul {α : Type} [Mul α] [Add α] [HMul α Int α] (x y : RootTwo α) : RootTwo α :=
  ⟨x.a * y.a + (x.b * y.b) * (2 : Int), x.a * y.b + x.b * y.a⟩

/-- `impl<T: Neg> Adj2 for RootTwo<T>`: the root-two conjugate
`adj2(a + b√2) = a - b√2`. -/
def adj2 {α : Type} [Neg α] (x : RootTwo α) : RootTwo α :=
  ⟨x.a, -x.b⟩

/-- The `while power > 0 { result = result * self; power -= 1 }` loop of
`pow::Pow<u32> for RootTwo<i64>`, as structural recursion on the remaining
power. -/
def powLoop (x result : RootTwo Int) (power : Nat) : RootTwo Int :=
  match power with
  | 0 => result
  | p + 1 => powLoop x (mul result x) p

/-- `impl pow::Pow<u32> for RootTwo<i64>`: `power == 0` returns `RootTwo(0, 0)`
(the additive identity); otherwise `result` starts at `self` and is multiplied
by `self` a further `power - 1` times. -/
def pow (x : RootTwo Int) (power : Nat) : RootTwo Int :=
  if power = 0 then ⟨0, 0⟩
  else powLoop x x (power - 1)

end RootTwo

/-- Two's-complement reinterpretation of a natural number as a signed 64-bit
value: reduce mod `2^64`, then values at or above `2^63` wrap negative. -/
def toI64 (n : Nat) : Int :=
  if n % 2 ^ 64 < 2 ^ 63 then ((n % 2 ^ 64 : Nat) : Int)
  else ((n % 2 ^ 64 : Nat) : Int) - 2 ^ 64

/-- The Rust expression `1i64 << s` at 64-bit width: shifting by 64 or more
bits is an arithmetic overflow (a panic in debug builds), modelled as `none`;
otherwise the result is the two's-complement value of `2^s` in 64 bits. -/
def shl1i64 (s : Nat) : Option Int :=
  if s < 64 then some (toI64 (2 ^ s)) else none

/-- `impl ops::Add for Dyadic` with the scale computation
`let k_delta = 1i64 << (b.1 - a.1)` modelled at its true 64-bit width via
`shl1i64`: the addition fails (`none`) exactly when the shift overflows. -/
def Dyadic.addChecked (s r : Dyadic) : Option Dyadic :=
  if s.exp = r.exp then some (Dyadic.simplify (s.num + r.num) s.exp)
  else
    let a := if s.exp < r.exp then s else r
    let b := if s.exp < r.exp then r else s
    match shl1i64 (b.exp - a.exp) with
    | none => none
    | some kDelta => some (Dyadic.simplify (a.num * kDelta + b.num) b.exp)

/-- The `simplify` loop with an explicit iteration budget `fuel`: `none` means
the budget was exhausted while the loop guard
`x > 0 && k > 0 && (x & (x - 1)) == 0` still held.  Used to state that the
real loop needs at most `k` iterations. -/
def Dyadic.simplifyIter (fuel : Nat) (x : Int) (k : Nat) : Option Dyadic :=
  match fuel with
  | 0 =>
    if 0 < x ∧ 0 < k ∧ Int.land x (x - 1) = 0 then none else some ⟨x, k⟩
  | f + 1 =>
    if 0 < x ∧ 0 < k ∧ Int.land x (x - 1) = 0 then
      Dyadic.simplifyIter f (x / 2) (k - 1)
    else some ⟨x, k⟩

section SanityChecks

/- Reference behaviors from the repository's unit tests. -/

example : Dyadic.add ⟨3, 2⟩ ⟨1, 2⟩ = ⟨1, 0⟩ := by decide
example : Dyadic.neg ⟨3, 2⟩ = ⟨-3, 2⟩ := by decide
example : RootTwo.add (α := Int) ⟨1, 2⟩ ⟨3, 4⟩ = ⟨4, 6⟩ := by decide
example : RootTwo.sub (α := Int) ⟨1, 2⟩ ⟨3, 4⟩ = ⟨-2, -2⟩ := by decide
example : RootTwo.mul (α := Int) ⟨3, 4⟩ ⟨5, 6⟩ = ⟨63, 38⟩ := by decide
example :
    RootTwo.add (α := Dyadic) ⟨⟨3, 2⟩, ⟨3, 7⟩⟩ ⟨⟨4, 2⟩, ⟨3, 8⟩⟩ =
      ⟨⟨7, 2⟩, ⟨9, 8⟩⟩ := by decide
example :
    RootTwo.sub (α := Dyadic) ⟨⟨3, 2⟩, ⟨3, 7⟩⟩ ⟨⟨4, 2⟩, ⟨3, 8⟩⟩ =
      ⟨⟨-1, 2⟩, ⟨3, 8⟩⟩ := by decide

end SanityChecks

/-! ## Helper lemmas -/

/-- `simplify` leaves any non-positive numerator untouched: the loop guard
requires `x > 0`. -/
theorem Dyadic.simplify_of_nonpos (x : Int) (k : Nat) (hx : x ≤ 0) :
    Dyadic.simplify x k = ⟨x, k⟩ := by
  cases k with
  | zero => rfl
  | succ k' =>
    rw [Dyadic.simplify, if_neg]
    rintro ⟨h1, -⟩
    omega

/-- Every value returned by `simplify` is `reduced`: the loop only exits when
its guard fails. -/
theorem Dyadic.reduced_simplify (k : Nat) :
    ∀ x : Int, (Dyadic.simplify x k).reduced = true := by
  induction k with
  | zero => intro x; simp [Dyadic.simplify, Dyadic.reduced]
  | succ k' ih =>
    intro x
    rw [Dyadic.simplify]
    split
    · exact ih _
    · rename_i h
      simp only [Dyadic.reduced, Bool.not_eq_true', Bool.and_eq_false_iff]
      rcases Decidable.not_and_iff_or_not.mp h with h1 | h2
      · left
        left
        simpa using h1
      · right
        simpa using h2

/-- With at least `k` units of fuel, the budgeted loop agrees with `simplify`:
the loop decrements `k` on every iteration, so it runs at most `k` times. -/
theorem Dyadic.simplifyIter_eq_of_le (k : Nat) :
    ∀ (f : Nat) (x : Int), k ≤ f →
      Dyadic.simplifyIter f x k = some (Dyadic.simplify x k) := by
  induction k with
  | zero =>
    intro f x _
    cases f with
    | zero =>
      rw [Dyadic.simplifyIter, if_neg]
      · rfl
      · rintro ⟨-, h, -⟩; omega
    | succ f' =>
      rw [Dyadic.simplifyIter, if_neg]
      · rfl
      · rintro ⟨-, h, -⟩; omega
  | succ k' ih =>
    intro f x hf
    cases f with
    | zero => omega
    | succ f' =>
      rw [Dyadic.simplifyIter, Dyadic.simplify]
      by_cases hc : 0 < x ∧ Int.land x (x - 1) = 0
      · rw [if_pos ⟨hc.1, Nat.succ_pos k', hc.2⟩, if_pos hc]
        exact ih f' (x / 2) (Nat.le_of_succ_le_succ hf)
      · rw [if_neg, if_neg hc]
        rintro ⟨h1, -, h3⟩
        exact hc ⟨h1, h3⟩

/-! ## Claim theorems -/

/-- C1 (counterexample): the claim that arithmetic results have an odd, zero,
or negative numerator whenever the exponent is positive fails: adding the
canonical values `Dyadic(1, 1)` and `Dyadic(5, 1)` yields `Dyadic(6, 1)`,
whose numerator `6` is even and positive at exponent `1` (`simplify` only
reduces numerators that are powers of two, and `6` is not one). -/
theorem dyadic_add_breaks_odd_zero_neg_invariant :
    Dyadic.add ⟨1, 1⟩ ⟨5, 1⟩ = ⟨6, 1⟩ ∧
      0 < (Dyadic.add ⟨1, 1⟩ ⟨5, 1⟩).exp ∧
      ¬(Odd (Dyadic.add ⟨1, 1⟩ ⟨5, 1⟩).num ∨
        (Dyadic.add ⟨1, 1⟩ ⟨5, 1⟩).num = 0 ∨
        (Dyadic.add ⟨1, 1⟩ ⟨5, 1⟩).num < 0) := by
  refine ⟨by decide, by decide, ?_⟩
  rw [show Dyadic.add ⟨1, 1⟩ ⟨5, 1⟩ = ⟨6, 1⟩ from by decide]
  decide

/-- C1 (amended): every `Dyadic` arithmetic operation (addition, subtraction,
multiplication, and multiplication by an integer in either operand order)
returns a value satisfying the invariant that `simplify` actually maintains:
whenever the exponent is positive, the numerator is not a positive power of
two (it may still be even, as the counterexample shows). -/
theorem dyadic_ops_return_reduced (x y : Dyadic) (n : Int) :
    (Dyadic.add x y).reduced = true ∧
      (Dyadic.sub x y).reduced = true ∧
      (Dyadic.mul x y).reduced = true ∧
      (Dyadic.mulInt x n).reduced = true ∧
      (Dyadic.intMul n x).reduced = true := by
  have hadd : ∀ u v : Dyadic, (Dyadic.add u v).reduced = true := by
    intro u v
    rw [Dyadic.add]
    split
    · exact Dyadic.reduced_simplify _ _
    · exact Dyadic.reduced_simplify _ _
  exact ⟨hadd x y, hadd x y.neg, Dyadic.reduced_simplify _ _,
    Dyadic.reduced_simplify _ _, Dyadic.reduced_simplify _ _⟩

/-- C3 (counterexample): `Dyadic(3, 1)` is canonical (it is a fixed point of
`simplify`), yet `Dyadic(3, 1) - Dyadic(3, 1)` is `Dyadic(0, 1)`, not the
canonical zero `Dyadic(0, 0)`: `simplify` never reduces a zero numerator, so
the operand's exponent survives. -/
theorem dyadic_sub_self_ne_canonical_zero :
    Dyadic.simplify 3 1 = ⟨3, 1⟩ ∧
      Dyadic.sub ⟨3, 1⟩ ⟨3, 1⟩ = ⟨0, 1⟩ ∧
      Dyadic.sub ⟨3, 1⟩ ⟨3, 1⟩ ≠ ⟨0, 0⟩ := by
  refine ⟨by decide, by decide, ?_⟩
  rw [show Dyadic.sub ⟨3, 1⟩ ⟨3, 1⟩ = ⟨0, 1⟩ from by decide]
  decide

/-- C3 (amended): for every `Dyadic` `x` (canonical or not), `x - x` equals
`Dyadic(0, x.exponent)` — the zero numerator at the operand's own exponent;
this coincides with the canonical zero `Dyadic(0, 0)` exactly when
`x.exponent = 0`. -/
theorem dyadic_sub_self (x : Dyadic) : Dyadic.sub x x = ⟨0, x.exp⟩ := by
  show Dyadic.add x x.neg = _
  rw [Dyadic.add, if_pos (show x.exp = x.neg.exp from rfl)]
  rw [show x.num + x.neg.num = 0 from by simp [Dyadic.neg]]
  exact Dyadic.simplify_of_nonpos 0 x.exp le_rfl

/-- C5: `Pow(x, 0)` returns the additive identity `RootTwo(0, 0)`, which is
distinct from the multiplicative identity `RootTwo(1, 0)`. -/
theorem roottwo_pow_zero (x : RootTwo Int) :
    RootTwo.pow x 0 = ⟨0, 0⟩ ∧ (⟨0, 0⟩ : RootTwo Int) ≠ ⟨1, 0⟩ :=
  ⟨rfl, by decide⟩

/-- C5 witness: the zero-power policy at the concrete base `RootTwo(5, 7)`. -/
theorem roottwo_pow_zero_witness :
    RootTwo.pow ⟨5, 7⟩ 0 = ⟨0, 0⟩ ∧ (⟨0, 0⟩ : RootTwo Int) ≠ ⟨1, 0⟩ :=
  roottwo_pow_zero ⟨5, 7⟩

/-- C6: canonicalization never reduces zero or negative numerators: for every
`x ≤ 0` and every exponent `k`, `simplify x k` returns `(x, k)` unchanged. -/
theorem simplify_fixes_nonpos (x : Int) (k : Nat) (hx : x ≤ 0) :
    Dyadic.simplify x k = ⟨x, k⟩ :=
  Dyadic.simplify_of_nonpos x k hx

/-- C6 witness: in particular `simplify (-2) 1 = (-2, 1)`, not `(-1, 0)`. -/
theorem simplify_fixes_nonpos_witness :
    (-2 : Int) ≤ 0 ∧ Dyadic.simplify (-2) 1 = ⟨-2, 1⟩ ∧
      (⟨-2, 1⟩ : Dyadic) ≠ ⟨-1, 0⟩ :=
  ⟨by decide, simplify_fixes_nonpos (-2) 1 (by decide), by decide⟩

/-- C10: `Dyadic::simplify` terminates on every input: the loop decrements the
exponent `k` on every iteration, so a fuel budget of `k` iterations always
suffices — the budgeted loop `simplifyIter` never exhausts its fuel and agrees
with the total function `simplify`. -/
theorem simplify_terminates_in_exp_steps (x : Int) (k : Nat) :
    Dyadic.simplifyIter k x k = some (Dyadic.simplify x k) :=
  Dyadic.simplifyIter_eq_of_le k k x le_rfl

/-- C2 (counterexample): conjugation does NOT distribute over multiplication
for `RootTwo` over `Dyadic` coefficients: with `x = (1) + (0)√2` and
`y = (0) + (2/2)√2` (numerator 2 at exponent 1), the `√2`-coefficient of
`adj2(x*y)` is the simplified `Dyadic(-1, 0)` while that of
`adj2(x)*adj2(y)` is the unsimplified `Dyadic(-2, 1)`: `simplify` reduces
the positive product `2/2` but never the negated one `-2/2`. -/
theorem adj2_mul_dyadic_coeffs_fails :
    RootTwo.adj2 (RootTwo.mul (α := Dyadic) ⟨⟨1, 0⟩, ⟨0, 0⟩⟩ ⟨⟨0, 0⟩, ⟨2, 1⟩⟩) ≠
      RootTwo.mul (RootTwo.adj2 ⟨⟨1, 0⟩, ⟨0, 0⟩⟩)
        (RootTwo.adj2 ⟨⟨0, 0⟩, ⟨2, 1⟩⟩) := by
  decide

/-- C2 (amended): conjugation distributes over ring multiplication for
`RootTwo` over plain (64-bit) integer coefficients:
`adj2(x*y) = adj2(x) * adj2(y)` for all `x, y : RootTwo Int`.  Over `Dyadic`
coefficients the identity can fail, by the counterexample. -/
theorem adj2_mul_int_coeffs (x y : RootTwo Int) :
    RootTwo.adj2 (RootTwo.mul x y) =
      RootTwo.mul (RootTwo.adj2 x) (RootTwo.adj2 y) := by
  cases x with
  | mk xa xb =>
    cases y with
    | mk ya yb =>
      simp only [RootTwo.mul, RootTwo.adj2, RootTwo.mk.injEq]
      constructor <;> ring

/-- C4 (counterexample): `Dyadic` addition is not associative, even on
canonical inputs with no overflow: with `x = 3/4`, `y = 5/4`, `z = 3/2` (all
fixed points of `simplify`), `(x + y) + z = Dyadic(7, 1)` while
`x + (y + z) = Dyadic(14, 2)` — equal as rationals but structurally distinct,
because `simplify` cannot reduce the non-power-of-two numerator `14`. -/
theorem dyadic_add_assoc_fails :
    Dyadic.simplify 3 2 = ⟨3, 2⟩ ∧ Dyadic.simplify 5 2 = ⟨5, 2⟩ ∧
      Dyadic.simplify 3 1 = ⟨3, 1⟩ ∧
      Dyadic.add (Dyadic.add ⟨3, 2⟩ ⟨5, 2⟩) ⟨3, 1⟩ = ⟨7, 1⟩ ∧
      Dyadic.add ⟨3, 2⟩ (Dyadic.add ⟨5, 2⟩ ⟨3, 1⟩) = ⟨14, 2⟩ ∧
      Dyadic.add (Dyadic.add ⟨3, 2⟩ ⟨5, 2⟩) ⟨3, 1⟩ ≠
        Dyadic.add ⟨3, 2⟩ (Dyadic.add ⟨5, 2⟩ ⟨3, 1⟩) := by
  decide

/-- C4 (amended): `Dyadic` addition is associative on canonical values whose
exponents are all `0` (where no scaling or simplification can occur); for
canonical operands with positive exponents it fails even without overflow, by
the counterexample. -/
theorem dyadic_add_assoc_exp_zero (a b c : Int) :
    Dyadic.add (Dyadic.add ⟨a, 0⟩ ⟨b, 0⟩) ⟨c, 0⟩ =
      Dyadic.add ⟨a, 0⟩ (Dyadic.add ⟨b, 0⟩ ⟨c, 0⟩) := by
  have h : ∀ u v : Int, Dyadic.add ⟨u, 0⟩ ⟨v, 0⟩ = ⟨u + v, 0⟩ := by
    intro u v
    rw [Dyadic.add, if_pos rfl]
    rfl
  rw [h, h, h, h, add_assoc]

/-- C7: `Dyadic` addition is commutative — for all `x` and `y` (canonical or
not), `x + y = y + x`: equal exponents add commuting numerators, and unequal
exponents select the same `(a, b)` pair in either operand order. -/
theorem dyadic_add_comm (x y : Dyadic) : Dyadic.add x y = Dyadic.add y x := by
  rcases Nat.lt_trichotomy x.exp y.exp with h | h | h
  · have h1 : x.exp ≠ y.exp := Nat.ne_of_lt h
    have h2 : ¬y.exp < x.exp := Nat.not_lt.mpr (Nat.le_of_lt h)
    simp [Dyadic.add, h, h1, h2, Ne.symm h1]
  · rw [Dyadic.add, Dyadic.add, if_pos h, if_pos h.symm, h, Int.add_comm]
  · have h1 : y.exp ≠ x.exp := Nat.ne_of_lt h
    have h2 : ¬x.exp < y.exp := Nat.not_lt.mpr (Nat.le_of_lt h)
    simp [Dyadic.add, h, h1, h2, Ne.symm h1]

/-- C9: the scale computation `1i64 << (b.1 - a.1)` in `Dyadic` addition makes
the operation total only when the exponents differ by at most 63:
(i) a difference of 64 or more overflows the shift and the addition fails;
(ii) for every difference at most 62 the computed scale is exactly
`2^difference`; (iii) under the precondition that the difference is at most
63, the failure branch is unreachable and the addition always produces a
value. -/
theorem addChecked_shift_width :
    (∀ s r : Dyadic, 64 ≤ max s.exp r.exp - min s.exp r.exp →
        Dyadic.addChecked s r = none) ∧
      (∀ d : Nat, d ≤ 62 → shl1i64 d = some ((2 : Int) ^ d)) ∧
      (∀ s r : Dyadic, max s.exp r.exp - min s.exp r.exp ≤ 63 →
        ∃ t, Dyadic.addChecked s r = some t) := by
  have hnone : ∀ d : Nat, 64 ≤ d → shl1i64 d = none := by
    intro d hd
    rw [shl1i64, if_neg (by omega)]
  refine ⟨?_, ?_, ?_⟩
  · intro s r h
    have he : s.exp ≠ r.exp := by
      intro he
      rw [he, Nat.max_self, Nat.min_self] at h
      omega
    simp only [Dyadic.addChecked]
    rw [if_neg he]
    by_cases hlt : s.exp < r.exp
    · simp only [if_pos hlt]
      rw [hnone (r.exp - s.exp) (by omega)]
    · simp only [if_neg hlt]
      rw [hnone (s.exp - r.exp) (by omega)]
  · intro d hd
    have h1 : (2 : Nat) ^ d < 2 ^ 63 :=
      lt_of_le_of_lt (Nat.pow_le_pow_right (by norm_num) hd) (by norm_num)
    have h2 : (2 : Nat) ^ d % 2 ^ 64 = 2 ^ d :=
      Nat.mod_eq_of_lt (lt_trans h1 (by norm_num))
    rw [shl1i64, if_pos (by omega), toI64, h2, if_pos h1]
    norm_num
  · intro s r h
    by_cases he : s.exp = r.exp
    · exact ⟨_, by rw [Dyadic.addChecked, if_pos he]⟩
    · simp only [Dyadic.addChecked]
      rw [if_neg he]
      by_cases hlt : s.exp < r.exp
      · simp only [if_pos hlt]
        rw [shl1i64, if_pos (by omega)]
        exact ⟨_, rfl⟩
      · simp only [if_neg hlt]
        rw [shl1i64, if_pos (by omega)]
        exact ⟨_, rfl⟩

/-- C9 witness: concrete instances of the three parts — an exponent gap of 100
fails, the scale for a gap of 5 is exactly `32`, and a gap of 3 succeeds. -/
theorem addChecked_shift_width_witness :
    Dyadic.addChecked ⟨1, 100⟩ ⟨1, 0⟩ = none ∧
      shl1i64 5 = some 32 ∧
      ∃ t, Dyadic.addChecked ⟨1, 3⟩ ⟨1, 0⟩ = some t := by
  refine ⟨addChecked_shift_width.1 ⟨1, 100⟩ ⟨1, 0⟩ (by decide), ?_,
    addChecked_shift_width.2.2 ⟨1, 3⟩ ⟨1, 0⟩ (by decide)⟩
  rw [addChecked_shift_width.2.1 5 (by decide)]
  norm_num
